import Mathlib

/-!
Verification of the statistics core of the UFC Fighter Performance Analysis
dashboard (`scripts/app.py`): the record loader (`load_data`), the free-text
method classifier (the `str.contains` tests inside `calculate_fighter_stats`),
the per-fighter aggregator (`calculate_fighter_stats`), and the decision-win
residual of `create_finish_method_pie`.

Strings are Lean `String`s; a pandas cell that may be NaN is an `Option`;
dataframe column presence is table-wide `Bool` flags; floats are modelled by
`ℚ`; dates are modelled by the `Nat` timestamp a successful
`pd.to_datetime(..., errors='coerce')` produces (`none` = NaT).
-/

namespace UFCApp

/-! ### Character and string primitives (Python `str.lower`, `str.strip`,
substring containment as used by `Series.str.contains(pat, case=False)`) -/

/-- ASCII upper/lower case pairs, used to model Python case folding. -/
def upperLower : List (Char × Char) :=
  [('A','a'),('B','b'),('C','c'),('D','d'),('E','e'),('F','f'),('G','g'),
   ('H','h'),('I','i'),('J','j'),('K','k'),('L','l'),('M','m'),('N','n'),
   ('O','o'),('P','p'),('Q','q'),('R','r'),('S','s'),('T','t'),('U','u'),
   ('V','v'),('W','w'),('X','x'),('Y','y'),('Z','z')]

/-- Lower-case one character (ASCII, as Python's case-insensitive regex
matching behaves on the method strings of this data set). -/
def pyLowerChar (c : Char) : Char :=
  match upperLower.find? (fun p => p.1 == c) with
  | some p => p.2
  | none => c

/-- The whitespace characters stripped by Python's `str.strip()`. -/
def pyIsSpace (c : Char) : Bool :=
  c == ' ' || c == '\t' || c == '\n' || c == '\r' || c == '\x0b' || c == '\x0c'

/-- Lower-case a list of characters. -/
def pyLower (l : List Char) : List Char := l.map pyLowerChar

/-- `listHasPre p l` holds when `l` starts with `p`. -/
def listHasPre : List Char → List Char → Bool
  | [], _ => true
  | _ :: _, [] => false
  | a :: as, b :: bs => a == b && listHasPre as bs

/-- `listHasSub n l` holds when `n` occurs contiguously inside `l`
(Python `n in l` / regex literal match). -/
def listHasSub (n : List Char) : List Char → Bool
  | [] => listHasPre n []
  | b :: bs => listHasPre n (b :: bs) || listHasSub n bs

/-- Python `str.strip()` on a character list: drop whitespace from both ends. -/
def pyStripList (l : List Char) : List Char :=
  ((l.dropWhile pyIsSpace).reverse.dropWhile pyIsSpace).reverse

/-- Python `str.strip()` on a string. -/
def pyStrip (s : String) : String := ⟨pyStripList s.data⟩

/-- Case-insensitive containment of the literal pattern `pat` in `t`:
`Series.str.contains(pat, case=False)` for one regex alternative. -/
def matchCI (t : String) (pat : String) : Bool :=
  listHasSub (pyLower pat.data) (pyLower t.data)

/-! ### Method classifier (`app.py` lines 176-183) -/

/-- Alternatives of the KO regex `'KO|TKO|Knockout|knockout'`. -/
def ko_keywords : List String := ["KO", "TKO", "Knockout", "knockout"]

/-- Alternatives of the submission regex
`'Sub|submission|Submission|choke|arm|leg|triangle|rear naked|guillotine'`. -/
def sub_keywords : List String :=
  ["Sub", "submission", "Submission", "choke", "arm", "leg", "triangle",
   "rear naked", "guillotine"]

/-- KO test on one method cell; NaN (`none`) yields `false` (`na=False`). -/
def is_ko_method (mo : Option String) : Bool :=
  match mo with
  | none => false
  | some t => ko_keywords.any (fun p => matchCI t p)

/-- Submission test on one method cell; NaN yields `false` (`na=False`). -/
def is_sub_method (mo : Option String) : Bool :=
  match mo with
  | none => false
  | some t => sub_keywords.any (fun p => matchCI t p)

/-- The classifier's result record. -/
structure MethodFlags where
  isKO : Bool
  isSubmission : Bool
deriving DecidableEq, Repr

/-- The method classifier: the pair of `str.contains` tests applied to one
method cell in `calculate_fighter_stats`. -/
def classify (mo : Option String) : MethodFlags :=
  ⟨is_ko_method mo, is_sub_method mo⟩

/-! ### Canonical table (output of `load_data`) -/

/-- One row of the canonical table. Fields mirror the dataframe columns;
a field whose column flag in `Table` is `false` is present but ignored, just
as a pandas lookup guarded by `'col' in df.columns` never reads it. `method`
stays an `Option` because `dropna` is only applied to `winner`/`loser`. -/
structure Bout where
  winner : String
  loser : String
  method : Option String
  date : Nat
  winner_strikes_landed : Nat
  winner_strikes_attempted : Nat
  winner_takedowns : Nat
  winner_takedown_attempts : Nat
  loser_strikes_landed : Nat
  loser_strikes_attempted : Nat
  loser_takedowns : Nat
  loser_takedown_attempts : Nat
  time_minutes : ℚ
deriving DecidableEq, Repr

/-- The canonical table: the row list plus table-wide column-presence flags
(`'col' in df.columns` is a property of the frame, not of a row). -/
structure Table where
  hasDate : Bool
  hasMethod : Bool
  hasWinnerStats : Bool
  hasLoserStats : Bool
  hasTime : Bool
  rows : List Bout
deriving DecidableEq, Repr

/-- One bout viewed from one competitor's side, after the rename /
zero-fill step of `calculate_fighter_stats` (lines 124-160). `result` is the
literal `'Win'` / `'Loss'` string the code stores. -/
structure PerspectiveBout where
  result : String
  winner : String
  loser : String
  method : Option String
  date : Nat
  strikes_landed : Nat
  strikes_attempted : Nat
  takedowns_landed : Nat
  takedown_attempts : Nat
  time_minutes : ℚ
deriving DecidableEq, Repr

/-- The stats record returned by `calculate_fighter_stats` (lines 207-221). -/
structure FighterCareerStats where
  name : String
  total_fights : Nat
  wins : Nat
  losses : Nat
  win_rate : ℚ
  ko_rate : ℚ
  sub_rate : ℚ
  strike_accuracy : ℚ
  takedown_accuracy : ℚ
  avg_fight_time : ℚ
  ko_wins : Nat
  sub_wins : Nat
  fights_data : List PerspectiveBout
deriving DecidableEq, Repr

/-! ### Fighter aggregator (`calculate_fighter_stats`, lines 115-223) -/

/-- `df[df['winner'] == fighter_name]` (line 117). -/
def fighter_win_rows (t : Table) (name : String) : List Bout :=
  t.rows.filter (fun b => b.winner == name)

/-- `df[df['loser'] == fighter_name]` (line 118). -/
def fighter_loss_rows (t : Table) (name : String) : List Bout :=
  t.rows.filter (fun b => b.loser == name)

/-- Win-row perspective, parametrised by the table-wide presence of the
`winner_*` column group: stats come from those columns when the group exists,
else the zero-filled dummies (lines 134-146). -/
def winPerspective (hasWinnerStats : Bool) (b : Bout) : PerspectiveBout :=
  { result := "Win"
    winner := b.winner
    loser := b.loser
    method := b.method
    date := b.date
    strikes_landed := if hasWinnerStats then b.winner_strikes_landed else 0
    strikes_attempted := if hasWinnerStats then b.winner_strikes_attempted else 0
    takedowns_landed := if hasWinnerStats then b.winner_takedowns else 0
    takedown_attempts := if hasWinnerStats then b.winner_takedown_attempts else 0
    time_minutes := b.time_minutes }

/-- Loss-row perspective: symmetric with the `loser_*` columns (lines 148-160). -/
def lossPerspective (hasLoserStats : Bool) (b : Bout) : PerspectiveBout :=
  { result := "Loss"
    winner := b.winner
    loser := b.loser
    method := b.method
    date := b.date
    strikes_landed := if hasLoserStats then b.loser_strikes_landed else 0
    strikes_attempted := if hasLoserStats then b.loser_strikes_attempted else 0
    takedowns_landed := if hasLoserStats then b.loser_takedowns else 0
    takedown_attempts := if hasLoserStats then b.loser_takedown_attempts else 0
    time_minutes := b.time_minutes }

/-- Insert one perspective row into a date-sorted list, keeping it sorted. -/
def insertByDate (p : PerspectiveBout) : List PerspectiveBout → List PerspectiveBout
  | [] => [p]
  | q :: qs => if p.date ≤ q.date then p :: q :: qs else q :: insertByDate p qs

/-- `all_fights.sort_values('date')` (line 165): sort ascending by date. -/
def sortByDate : List PerspectiveBout → List PerspectiveBout
  | [] => []
  | p :: ps => insertByDate p (sortByDate ps)

/-- `calculate_fighter_stats(df, fighter_name)`: `none` models the `return
None` of line 122, `some` the stats dict of lines 207-221. -/
def calculate_fighter_stats (t : Table) (name : String) : Option FighterCareerStats :=
  let fighter_wins := fighter_win_rows t name
  let fighter_losses := fighter_loss_rows t name
  if fighter_wins.length = 0 ∧ fighter_losses.length = 0 then none
  else
    let wins_data := fighter_wins.map (winPerspective t.hasWinnerStats)
    let losses_data := fighter_losses.map (lossPerspective t.hasLoserStats)
    let concatenated := wins_data ++ losses_data
    let all_fights := if t.hasDate then sortByDate concatenated else concatenated
    let total_fights := all_fights.length
    let wins := fighter_wins.length
    let losses := fighter_losses.length
    let ko_wins :=
      if t.hasMethod then (fighter_wins.filter (fun b => is_ko_method b.method)).length else 0
    let sub_wins :=
      if t.hasMethod then (fighter_wins.filter (fun b => is_sub_method b.method)).length else 0
    let total_strikes_landed : ℕ := (all_fights.map (fun p => p.strikes_landed)).sum
    let total_strikes_attempted : ℕ := (all_fights.map (fun p => p.strikes_attempted)).sum
    let strike_accuracy : ℚ :=
      if total_strikes_attempted > 0 then
        (total_strikes_landed : ℚ) / (total_strikes_attempted : ℚ) * 100
      else 0
    let total_takedowns_landed : ℕ := (all_fights.map (fun p => p.takedowns_landed)).sum
    let total_takedown_attempts : ℕ := (all_fights.map (fun p => p.takedown_attempts)).sum
    let takedown_accuracy : ℚ :=
      if total_takedown_attempts > 0 then
        (total_takedowns_landed : ℚ) / (total_takedown_attempts : ℚ) * 100
      else 0
    let avg_fight_time : ℚ :=
      if t.hasTime then ((all_fights.map (fun p => p.time_minutes)).sum) / (total_fights : ℚ)
      else 0
    some
      { name := name
        total_fights := total_fights
        wins := wins
        losses := losses
        win_rate := if total_fights > 0 then (wins : ℚ) / (total_fights : ℚ) * 100 else 0
        ko_rate := if wins > 0 then (ko_wins : ℚ) / (wins : ℚ) * 100 else 0
        sub_rate := if wins > 0 then (sub_wins : ℚ) / (wins : ℚ) * 100 else 0
        strike_accuracy := strike_accuracy
        takedown_accuracy := takedown_accuracy
        avg_fight_time := avg_fight_time
        ko_wins := ko_wins
        sub_wins := sub_wins
        fights_data := all_fights }

/-- Decision wins as computed by `create_finish_method_pie` (lines 331-334):
the unclamped integer residual `wins - ko_wins - sub_wins`. -/
def decision_wins (s : FighterCareerStats) : Int :=
  (s.wins : Int) - (s.ko_wins : Int) - (s.sub_wins : Int)

/-! ### Record loader (`load_data`, lines 48-113) -/

/-- One raw CSV row before validation. `winner`/`loser`/`method` cells may be
NaN; `date` is the outcome of the flexible parse of line 59: `some ts` when
`pd.to_datetime` succeeds, `none` when it coerces to NaT (unparsable or
missing). -/
structure RawRow where
  winner : Option String
  loser : Option String
  method : Option String
  date : Option Nat
  winner_strikes_landed : Nat
  winner_strikes_attempted : Nat
  winner_takedowns : Nat
  winner_takedown_attempts : Nat
  loser_strikes_landed : Nat
  loser_strikes_attempted : Nat
  loser_takedowns : Nat
  loser_takedown_attempts : Nat
  time_minutes : ℚ
deriving DecidableEq, Repr

/-- The raw frame `pd.read_csv` yields, with its table-wide column presence. -/
structure RawTable where
  hasWinner : Bool
  hasLoser : Bool
  hasMethod : Bool
  hasDate : Bool
  hasWinnerStats : Bool
  hasLoserStats : Bool
  hasTime : Bool
  rows : List RawRow
deriving DecidableEq, Repr

/-- Load failure: the required-columns check of lines 67-73, carrying the
missing names the error message lists. -/
inductive LoadError where
  | missingColumns (cols : List String)
deriving DecidableEq, Repr

/-- `required_columns` of line 68. -/
def required_columns : List String := ["winner", "loser", "method"]

/-- `col in df.columns` for the raw frame. -/
def rawHasCol (t : RawTable) : String → Bool
  | "winner" => t.hasWinner
  | "loser" => t.hasLoser
  | "method" => t.hasMethod
  | "date" => t.hasDate
  | _ => false

/-- The missing required columns, in the order line 69 collects them. -/
def missing_required (t : RawTable) : List String :=
  required_columns.filter (fun c => !(rawHasCol t c))

/-- `str.strip()` then the exact-label `replace` dict of lines 80-88. -/
def normalize_method (s : String) : String :=
  if pyStrip s == "KO" || pyStrip s == "TKO" || pyStrip s == "Knockout"
      || pyStrip s == "Technical Knockout" || pyStrip s == "KO/TKO " then "KO/TKO"
  else pyStrip s

/-- Build a canonical row from a surviving raw row (its `winner`/`loser` are
known to be present; absent optional cells default like the untouched
dataframe values the guarded code never reads). -/
def toBout (r : RawRow) : Bout :=
  { winner := r.winner.getD ""
    loser := r.loser.getD ""
    method := r.method.map normalize_method
    date := r.date.getD 0
    winner_strikes_landed := r.winner_strikes_landed
    winner_strikes_attempted := r.winner_strikes_attempted
    winner_takedowns := r.winner_takedowns
    winner_takedown_attempts := r.winner_takedown_attempts
    loser_strikes_landed := r.loser_strikes_landed
    loser_strikes_attempted := r.loser_strikes_attempted
    loser_takedowns := r.loser_takedowns
    loser_takedown_attempts := r.loser_takedown_attempts
    time_minutes := r.time_minutes }

/-- `load_data`, from the point the CSV is parsed: drop NaT-date rows and
count them (lines 57-65), fail on missing required columns (lines 67-73),
drop rows with NaN winner/loser (line 76), normalize the method column
(lines 79-88). Returns the canonical table and the reported drop count. -/
def load_data (t : RawTable) : Except LoadError (Table × Nat) :=
  let afterDate := if t.hasDate then t.rows.filter (fun r => r.date.isSome) else t.rows
  let invalid_dates := if t.hasDate then (t.rows.filter (fun r => r.date.isNone)).length else 0
  let missing := missing_required t
  if missing.isEmpty then
    let cleaned := afterDate.filter (fun r => r.winner.isSome && r.loser.isSome)
    Except.ok
      ({ hasDate := t.hasDate
         hasMethod := t.hasMethod
         hasWinnerStats := t.hasWinnerStats
         hasLoserStats := t.hasLoserStats
         hasTime := t.hasTime
         rows := cleaned.map toBout }, invalid_dates)
  else
    Except.error (.missingColumns missing)

/-! ### Substring and strip lemmas -/

theorem listHasPre_iff (p l : List Char) : listHasPre p l = true ↔ ∃ t, l = p ++ t := by
  induction p generalizing l with
  | nil => simp [listHasPre]
  | cons a as ih =>
    cases l with
    | nil => simp [listHasPre]
    | cons b bs =>
      simp only [listHasPre, Bool.and_eq_true, beq_iff_eq, ih, List.cons_append,
        List.cons.injEq]
      constructor
      · rintro ⟨rfl, t, rfl⟩; exact ⟨t, rfl, rfl⟩
      · rintro ⟨t, rfl, rfl⟩; exact ⟨rfl, t, rfl⟩

theorem listHasSub_iff (n l : List Char) : listHasSub n l = true ↔ ∃ s t, l = s ++ n ++ t := by
  induction l with
  | nil =>
    cases n with
    | nil => simp [listHasSub, listHasPre]
    | cons a as => simp [listHasSub, listHasPre, eq_comm]
  | cons b bs ih =>
    simp only [listHasSub, Bool.or_eq_true, listHasPre_iff, ih]
    constructor
    · rintro (⟨t, ht⟩ | ⟨s, t, rfl⟩)
      · exact ⟨[], t, by simpa using ht⟩
      · exact ⟨b :: s, t, rfl⟩
    · rintro ⟨s, t, heq⟩
      cases s with
      | nil => exact Or.inl ⟨t, by simpa using heq⟩
      | cons c cs =>
        simp only [List.cons_append, List.cons.injEq] at heq
        exact Or.inr ⟨cs, t, heq.2⟩

/-- Dropping a leading run of `p`-characters cannot erase an occurrence of a
pattern whose first character fails `p`. -/
theorem dropWhile_keeps_sub (p : Char → Bool) (c : Char) (m : List Char)
    (hc : p c = false) (s t : List Char) :
    ∃ s', List.dropWhile p (s ++ (c :: m) ++ t) = s' ++ (c :: m) ++ t := by
  induction s with
  | nil => exact ⟨[], by simp [List.dropWhile_cons, hc]⟩
  | cons a s ih =>
    obtain ⟨s', hs'⟩ := ih
    cases ha : p a
    · exact ⟨a :: s, by simp [List.dropWhile_cons, ha]⟩
    · exact ⟨s', by simpa [List.dropWhile_cons, ha] using hs'⟩

/-- `pyStripList l` occurs contiguously inside `l`. -/
theorem strip_decomposition (l : List Char) : ∃ s t, l = s ++ pyStripList l ++ t := by
  refine ⟨List.takeWhile pyIsSpace l,
    (List.takeWhile pyIsSpace (List.dropWhile pyIsSpace l).reverse).reverse, ?_⟩
  unfold pyStripList
  conv_lhs => rw [← List.takeWhile_append_dropWhile (p := pyIsSpace) (l := l)]
  rw [List.append_assoc]
  congr 1
  conv_lhs => rw [← List.reverse_reverse (List.dropWhile pyIsSpace l),
    ← List.takeWhile_append_dropWhile (p := pyIsSpace)
      (l := (List.dropWhile pyIsSpace l).reverse)]
  rw [List.reverse_append]

theorem hasSub_of_strip (n l : List Char) (h : listHasSub n (pyStripList l) = true) :
    listHasSub n l = true := by
  obtain ⟨s0, t0, hl⟩ := strip_decomposition l
  obtain ⟨s, t, hstrip⟩ := (listHasSub_iff n _).mp h
  refine (listHasSub_iff n l).mpr ⟨s0 ++ s, t ++ t0, ?_⟩
  rw [hl, hstrip]
  simp [List.append_assoc]

/-- Stripping outer whitespace keeps any occurrence of a pattern whose first
and last characters are not whitespace. -/
theorem hasSub_strip (n l : List Char) (c : Char) (m : List Char)
    (hn : n = c :: m) (hc : pyIsSpace c = false)
    (d : Char) (m' : List Char) (hr : n.reverse = d :: m') (hd : pyIsSpace d = false)
    (h : listHasSub n l = true) : listHasSub n (pyStripList l) = true := by
  subst hn
  obtain ⟨s, t, rfl⟩ := (listHasSub_iff _ _).mp h
  obtain ⟨s1, hs1⟩ := dropWhile_keeps_sub pyIsSpace c m hc s t
  obtain ⟨s2, hs2⟩ := dropWhile_keeps_sub pyIsSpace d m' hd t.reverse s1.reverse
  refine (listHasSub_iff _ _).mpr ⟨s1, s2.reverse, ?_⟩
  unfold pyStripList
  rw [hs1]
  have hrev : (s1 ++ (c :: m) ++ t).reverse = t.reverse ++ (d :: m') ++ s1.reverse := by
    rw [← hr]; simp [List.append_assoc]
  rw [hrev, hs2, List.reverse_append, List.reverse_append, List.reverse_reverse, ← hr,
    List.reverse_reverse, List.append_assoc]

theorem hasSub_strip_iff (n l : List Char) (c : Char) (m : List Char)
    (hn : n = c :: m) (hc : pyIsSpace c = false)
    (d : Char) (m' : List Char) (hr : n.reverse = d :: m') (hd : pyIsSpace d = false) :
    listHasSub n (pyStripList l) = listHasSub n l := by
  cases h : listHasSub n l
  · cases h2 : listHasSub n (pyStripList l)
    · rfl
    · exact absurd (hasSub_of_strip n l h2) (by simp [h])
  · exact hasSub_strip n l c m hn hc d m' hr hd h

/-! ### Case folding commutes with stripping -/

theorem pyIsSpace_pyLowerChar (c : Char) : pyIsSpace (pyLowerChar c) = pyIsSpace c := by
  unfold pyLowerChar
  cases hf : upperLower.find? (fun p => p.1 == c) with
  | none => rfl
  | some pr =>
    have hmem : pr ∈ upperLower := List.mem_of_find?_eq_some hf
    have hpred := List.find?_some hf
    have h1 : pr.1 = c := by simpa using hpred
    have h2 : ∀ q ∈ upperLower, pyIsSpace q.1 = false ∧ pyIsSpace q.2 = false := by decide
    rw [(h2 pr hmem).2, ← h1, (h2 pr hmem).1]

theorem pyLower_reverse (l : List Char) : pyLower l.reverse = (pyLower l).reverse := by
  simp [pyLower]

theorem dropWhile_pyLower (l : List Char) :
    List.dropWhile pyIsSpace (pyLower l) = pyLower (List.dropWhile pyIsSpace l) := by
  induction l with
  | nil => rfl
  | cons a l ih =>
    show List.dropWhile pyIsSpace (pyLowerChar a :: pyLower l) = _
    rw [List.dropWhile_cons, List.dropWhile_cons, pyIsSpace_pyLowerChar]
    cases h : pyIsSpace a
    · simp only [h, Bool.false_eq_true, if_false]; rfl
    · simp only [h, if_true, ih]

theorem pyLower_pyStripList (l : List Char) :
    pyLower (pyStripList l) = pyStripList (pyLower l) := by
  unfold pyStripList
  rw [pyLower_reverse, ← dropWhile_pyLower, pyLower_reverse, ← dropWhile_pyLower]

/-- Stripping the subject string does not change one case-insensitive
keyword test, provided the keyword neither starts nor ends in whitespace. -/
theorem matchCI_pyStrip (t pat : String) (c : Char) (m : List Char)
    (hn : pyLower pat.data = c :: m) (hc : pyIsSpace c = false)
    (d : Char) (m' : List Char) (hr : (pyLower pat.data).reverse = d :: m')
    (hd : pyIsSpace d = false) :
    matchCI (pyStrip t) pat = matchCI t pat := by
  show listHasSub (pyLower pat.data) (pyLower (pyStripList t.data))
      = listHasSub (pyLower pat.data) (pyLower t.data)
  rw [pyLower_pyStripList]
  exact hasSub_strip_iff _ _ c m hn hc d m' hr hd

theorem is_ko_method_pyStrip (t : String) :
    is_ko_method (some (pyStrip t)) = is_ko_method (some t) := by
  simp only [is_ko_method, ko_keywords, List.any_cons, List.any_nil]
  rw [matchCI_pyStrip t "KO" 'k' ['o'] rfl rfl 'o' ['k'] rfl rfl,
    matchCI_pyStrip t "TKO" 't' ['k', 'o'] rfl rfl 'o' ['k', 't'] rfl rfl,
    matchCI_pyStrip t "Knockout" 'k' "nockout".data rfl rfl 't' "uokconk".data rfl rfl,
    matchCI_pyStrip t "knockout" 'k' "nockout".data rfl rfl 't' "uokconk".data rfl rfl]

theorem is_sub_method_pyStrip (t : String) :
    is_sub_method (some (pyStrip t)) = is_sub_method (some t) := by
  simp only [is_sub_method, sub_keywords, List.any_cons, List.any_nil]
  rw [matchCI_pyStrip t "Sub" 's' ['u', 'b'] rfl rfl 'b' ['u', 's'] rfl rfl,
    matchCI_pyStrip t "submission" 's' "ubmission".data rfl rfl 'n' "oissimbus".data rfl rfl,
    matchCI_pyStrip t "Submission" 's' "ubmission".data rfl rfl 'n' "oissimbus".data rfl rfl,
    matchCI_pyStrip t "choke" 'c' "hoke".data rfl rfl 'e' "kohc".data rfl rfl,
    matchCI_pyStrip t "arm" 'a' "rm".data rfl rfl 'm' "ra".data rfl rfl,
    matchCI_pyStrip t "leg" 'l' "eg".data rfl rfl 'g' "el".data rfl rfl,
    matchCI_pyStrip t "triangle" 't' "riangle".data rfl rfl 'e' "lgnairt".data rfl rfl,
    matchCI_pyStrip t "rear naked" 'r' "ear naked".data rfl rfl 'd' "ekan raer".data rfl rfl,
    matchCI_pyStrip t "guillotine" 'g' "uillotine".data rfl rfl 'e' "nitolliug".data rfl rfl]

/-! ### Sorting is a permutation -/

theorem insertByDate_perm (p : PerspectiveBout) (l : List PerspectiveBout) :
    List.Perm (insertByDate p l) (p :: l) := by
  induction l with
  | nil => exact List.Perm.refl _
  | cons q qs ih =>
    unfold insertByDate
    by_cases h : p.date ≤ q.date
    · rw [if_pos h]
    · rw [if_neg h]
      exact (ih.cons q).trans (List.Perm.swap p q qs)

theorem sortByDate_perm (l : List PerspectiveBout) : List.Perm (sortByDate l) l := by
  induction l with
  | nil => exact List.Perm.refl _
  | cons p ps ih => exact (insertByDate_perm p (sortByDate ps)).trans (ih.cons p)

theorem length_sortByDate (l : List PerspectiveBout) : (sortByDate l).length = l.length :=
  (sortByDate_perm l).length_eq

theorem mem_sortByDate {x : PerspectiveBout} {l : List PerspectiveBout} :
    x ∈ sortByDate l ↔ x ∈ l :=
  (sortByDate_perm l).mem_iff

/-! ### The classifier is invariant under the loader's method normalization -/

theorem classify_pyStrip (s : String) : classify (some (pyStrip s)) = classify (some s) := by
  unfold classify
  rw [is_ko_method_pyStrip, is_sub_method_pyStrip]

/-- C8: normalizing a method cell (strip + legacy-label remap) never changes
the classifier's verdict. -/
theorem classify_map_normalize (mo : Option String) :
    classify (mo.map normalize_method) = classify mo := by
  cases mo with
  | none => rfl
  | some s =>
    show classify (some (normalize_method s)) = classify (some s)
    rw [← classify_pyStrip s]
    unfold normalize_method
    cases hcond : (pyStrip s == "KO" || pyStrip s == "TKO" || pyStrip s == "Knockout"
        || pyStrip s == "Technical Knockout" || pyStrip s == "KO/TKO ") with
    | false => rw [if_neg (by simp [hcond])]
    | true =>
      rw [if_pos (by simp [hcond])]
      have h5 := hcond
      simp only [Bool.or_eq_true, beq_iff_eq] at h5
      rcases h5 with ((((h | h) | h) | h) | h) <;> rw [h] <;> decide

/-! ### Concrete tables used to instantiate the theorems -/

/-- A beats B by KO/TKO. -/
def b0 : Bout :=
  { winner := "A", loser := "B", method := some "KO/TKO", date := 5,
    winner_strikes_landed := 30, winner_strikes_attempted := 60,
    winner_takedowns := 2, winner_takedown_attempts := 4,
    loser_strikes_landed := 10, loser_strikes_attempted := 50,
    loser_takedowns := 0, loser_takedown_attempts := 1, time_minutes := 3 }

/-- C beats A by decision. -/
def b1 : Bout :=
  { winner := "C", loser := "A", method := some "Decision - Unanimous", date := 2,
    winner_strikes_landed := 20, winner_strikes_attempted := 40,
    winner_takedowns := 1, winner_takedown_attempts := 2,
    loser_strikes_landed := 10, loser_strikes_attempted := 40,
    loser_takedowns := 1, loser_takedown_attempts := 3, time_minutes := 15 }

/-- A row that involves neither A nor B nor C. -/
def b2 : Bout :=
  { winner := "X", loser := "Y", method := some "Submission (Armbar)", date := 3,
    winner_strikes_landed := 7, winner_strikes_attempted := 9,
    winner_takedowns := 3, winner_takedown_attempts := 5,
    loser_strikes_landed := 2, loser_strikes_attempted := 8,
    loser_takedowns := 0, loser_takedown_attempts := 0, time_minutes := 8 }

/-- A degenerate row in which the same name is recorded on both sides. -/
def bSelf : Bout :=
  { winner := "A", loser := "A", method := some "Decision", date := 1,
    winner_strikes_landed := 0, winner_strikes_attempted := 0,
    winner_takedowns := 0, winner_takedown_attempts := 0,
    loser_strikes_landed := 0, loser_strikes_attempted := 0,
    loser_takedowns := 0, loser_takedown_attempts := 0, time_minutes := 0 }

/-- A bout whose free-text method matches both keyword sets. -/
def bBoth : Bout :=
  { winner := "A", loser := "B", method := some "TKO (Submission to Punches)", date := 1,
    winner_strikes_landed := 0, winner_strikes_attempted := 0,
    winner_takedowns := 0, winner_takedown_attempts := 0,
    loser_strikes_landed := 0, loser_strikes_attempted := 0,
    loser_takedowns := 0, loser_takedown_attempts := 0, time_minutes := 0 }

def tEx : Table :=
  { hasDate := true, hasMethod := true, hasWinnerStats := true,
    hasLoserStats := true, hasTime := true, rows := [b0, b1] }

/-- `tEx` plus one row that mentions neither A nor B nor C. -/
def tEx2 : Table :=
  { hasDate := true, hasMethod := true, hasWinnerStats := true,
    hasLoserStats := true, hasTime := true, rows := [b0, b2, b1] }

def tSelf : Table :=
  { hasDate := false, hasMethod := true, hasWinnerStats := false,
    hasLoserStats := false, hasTime := false, rows := [bSelf] }

def tBoth : Table :=
  { hasDate := false, hasMethod := true, hasWinnerStats := false,
    hasLoserStats := false, hasTime := false, rows := [bBoth] }

/-! ### Aggregator lemmas and the claims -/

/-- A fighter appearing in some row makes the empty-subsets guard of line 120
fail. -/
theorem guard_false_of_appears (t : Table) (name : String)
    (hex : ∃ b ∈ t.rows, b.winner = name ∨ b.loser = name) :
    ¬((fighter_win_rows t name).length = 0 ∧ (fighter_loss_rows t name).length = 0) := by
  rintro ⟨hw, hl⟩
  obtain ⟨b, hb, hcase⟩ := hex
  rw [List.length_eq_zero] at hw hl
  rcases hcase with h | h
  · have hmem : b ∈ fighter_win_rows t name :=
      List.mem_filter.mpr ⟨hb, by simp [h]⟩
    rw [hw] at hmem
    exact List.not_mem_nil b hmem
  · have hmem : b ∈ fighter_loss_rows t name :=
      List.mem_filter.mpr ⟨hb, by simp [h]⟩
    rw [hl] at hmem
    exact List.not_mem_nil b hmem

/-- C1: on a table with the required columns, a fighter that appears in at
least one row gets a stats object with `wins + losses = total_fights`, where
`total_fights` is the length of the combined perspective sequence. -/
theorem wins_add_losses_eq_total (t : Table) (name : String)
    (hm : t.hasMethod = true)
    (hex : ∃ b ∈ t.rows, b.winner = name ∨ b.loser = name) :
    ∃ s, calculate_fighter_stats t name = some s ∧
      s.wins + s.losses = s.total_fights ∧ s.total_fights = s.fights_data.length := by
  have hguard := guard_false_of_appears t name hex
  simp only [calculate_fighter_stats]
  rw [if_neg hguard]
  refine ⟨_, rfl, ?_, rfl⟩
  dsimp only
  cases hd : t.hasDate with
  | false => simp
  | true => simp [length_sortByDate]

/-- C1 witness: fighter A in the two-row table. -/
theorem wins_add_losses_eq_total_witness :
    ∃ s, calculate_fighter_stats tEx "A" = some s ∧
      s.wins + s.losses = s.total_fights ∧ s.total_fights = s.fights_data.length :=
  wins_add_losses_eq_total tEx "A" rfl (by decide)

/-- C2: `calculate_fighter_stats` returns `none` exactly when the name is in
neither the winner nor the loser column; any fighter that does appear gets a
stats object, and a zero-win fighter's `ko_rate` and `sub_rate` are `0`. -/
theorem none_iff_absent (t : Table) (name : String) :
    (calculate_fighter_stats t name = none ↔
      ∀ b ∈ t.rows, b.winner ≠ name ∧ b.loser ≠ name) ∧
    ((∃ b ∈ t.rows, b.winner = name ∨ b.loser = name) →
      ∃ s, calculate_fighter_stats t name = some s ∧
        (s.wins = 0 → s.ko_rate = 0 ∧ s.sub_rate = 0)) := by
  constructor
  · constructor
    · intro hnone b hb
      constructor
      · intro hw
        have hguard := guard_false_of_appears t name ⟨b, hb, Or.inl hw⟩
        simp only [calculate_fighter_stats] at hnone
        rw [if_neg hguard] at hnone
        exact Option.some_ne_none _ hnone
      · intro hl
        have hguard := guard_false_of_appears t name ⟨b, hb, Or.inr hl⟩
        simp only [calculate_fighter_stats] at hnone
        rw [if_neg hguard] at hnone
        exact Option.some_ne_none _ hnone
    · intro hall
      have hguard : (fighter_win_rows t name).length = 0
          ∧ (fighter_loss_rows t name).length = 0 := by
        constructor <;>
          simp only [fighter_win_rows, fighter_loss_rows, List.length_eq_zero,
            List.filter_eq_nil_iff, beq_iff_eq] <;>
          intro b hb <;> simp [(hall b hb).1, (hall b hb).2]
      simp only [calculate_fighter_stats]
      rw [if_pos hguard]
  · intro hex
    have hguard := guard_false_of_appears t name hex
    simp only [calculate_fighter_stats]
    rw [if_neg hguard]
    refine ⟨_, rfl, ?_⟩
    intro hw0
    dsimp only at hw0 ⊢
    rw [hw0]
    norm_num

/-- C2 witness: Z appears nowhere in the table; B only ever lost. -/
theorem none_iff_absent_witness :
    calculate_fighter_stats tEx "Z" = none ∧
    (∃ s, calculate_fighter_stats tEx "B" = some s ∧
      (s.wins = 0 → s.ko_rate = 0 ∧ s.sub_rate = 0)) :=
  ⟨(none_iff_absent tEx "Z").1.mpr (by decide), (none_iff_absent tEx "B").2 (by decide)⟩

/-- C3: the classifier reproduces the spec's three test vectors. -/
theorem classify_test_vectors :
    classify (some "Submission (Rear Naked Choke)") = ⟨false, true⟩ ∧
    classify (some "TKO (Punches)") = ⟨true, false⟩ ∧
    classify (some "Decision - Unanimous") = ⟨false, false⟩ := by decide

/-- C4: every win-side perspective row draws its four strike/takedown figures
from the `winner_*` columns of a winning source row when that column group
exists table-wide, and from zero-filled defaults otherwise; loss-side rows
behave symmetrically with the `loser_*` columns. -/
theorem perspective_figures_source (t : Table) (name : String)
    (hex : ∃ b ∈ t.rows, b.winner = name ∨ b.loser = name) :
    ∃ s, calculate_fighter_stats t name = some s ∧
      ∀ p ∈ s.fights_data,
        (p.result = "Win" → ∃ b ∈ t.rows, b.winner = name ∧
          p.strikes_landed = (if t.hasWinnerStats then b.winner_strikes_landed else 0) ∧
          p.strikes_attempted = (if t.hasWinnerStats then b.winner_strikes_attempted else 0) ∧
          p.takedowns_landed = (if t.hasWinnerStats then b.winner_takedowns else 0) ∧
          p.takedown_attempts = (if t.hasWinnerStats then b.winner_takedown_attempts else 0)) ∧
        (p.result = "Loss" → ∃ b ∈ t.rows, b.loser = name ∧
          p.strikes_landed = (if t.hasLoserStats then b.loser_strikes_landed else 0) ∧
          p.strikes_attempted = (if t.hasLoserStats then b.loser_strikes_attempted else 0) ∧
          p.takedowns_landed = (if t.hasLoserStats then b.loser_takedowns else 0) ∧
          p.takedown_attempts = (if t.hasLoserStats then b.loser_takedown_attempts else 0)) := by
  have hguard := guard_false_of_appears t name hex
  simp only [calculate_fighter_stats]
  rw [if_neg hguard]
  refine ⟨_, rfl, ?_⟩
  intro p hp
  dsimp only at hp
  have hp' : p ∈ (fighter_win_rows t name).map (winPerspective t.hasWinnerStats)
      ++ (fighter_loss_rows t name).map (lossPerspective t.hasLoserStats) := by
    cases hd : t.hasDate
    · rw [hd] at hp; simpa using hp
    · rw [hd] at hp
      simp only [if_pos rfl] at hp
      exact mem_sortByDate.mp hp
  rcases List.mem_append.mp hp' with hw | hl
  · obtain ⟨b, hbf, rfl⟩ := List.mem_map.mp hw
    obtain ⟨hb, hbn⟩ := List.mem_filter.mp hbf
    have hbname : b.winner = name := by simpa using hbn
    constructor
    · intro _
      exact ⟨b, hb, hbname, rfl, rfl, rfl, rfl⟩
    · intro habs
      simp [winPerspective] at habs
  · obtain ⟨b, hbf, rfl⟩ := List.mem_map.mp hl
    obtain ⟨hb, hbn⟩ := List.mem_filter.mp hbf
    have hbname : b.loser = name := by simpa using hbn
    constructor
    · intro habs
      simp [lossPerspective] at habs
    · intro _
      exact ⟨b, hb, hbname, rfl, rfl, rfl, rfl⟩

/-- C4 witness. -/
theorem perspective_figures_source_witness :
    ∃ s, calculate_fighter_stats tEx "A" = some s ∧
      ∀ p ∈ s.fights_data,
        (p.result = "Win" → ∃ b ∈ tEx.rows, b.winner = "A" ∧
          p.strikes_landed = (if tEx.hasWinnerStats then b.winner_strikes_landed else 0) ∧
          p.strikes_attempted = (if tEx.hasWinnerStats then b.winner_strikes_attempted else 0) ∧
          p.takedowns_landed = (if tEx.hasWinnerStats then b.winner_takedowns else 0) ∧
          p.takedown_attempts = (if tEx.hasWinnerStats then b.winner_takedown_attempts else 0)) ∧
        (p.result = "Loss" → ∃ b ∈ tEx.rows, b.loser = "A" ∧
          p.strikes_landed = (if tEx.hasLoserStats then b.loser_strikes_landed else 0) ∧
          p.strikes_attempted = (if tEx.hasLoserStats then b.loser_strikes_attempted else 0) ∧
          p.takedowns_landed = (if tEx.hasLoserStats then b.loser_takedowns else 0) ∧
          p.takedown_attempts = (if tEx.hasLoserStats then b.loser_takedown_attempts else 0)) :=
  perspective_figures_source tEx "A" (by decide)

/-- C5 counterexample: one degenerate row with `winner = loser = "A"` yields
TWO perspective bouts for A (one Win and one Loss), not exactly one. -/
theorem self_bout_two_perspectives :
    tSelf.rows.length = 1 ∧
    (calculate_fighter_stats tSelf "A").map (fun s => s.fights_data.length) = some 2 ∧
    (calculate_fighter_stats tSelf "A").map
      (fun s => s.fights_data.map (fun p => p.result)) = some ["Win", "Loss"] := by decide

/-- C5 amended: a competitor gets exactly one perspective bout per row per
side occupied — one Win-perspective for each row won and one Loss-perspective
for each row lost — so a `winner = loser` row is tolerated and contributes one
of each rather than being rejected. -/
theorem one_perspective_per_side (t : Table) (name : String)
    (hex : ∃ b ∈ t.rows, b.winner = name ∨ b.loser = name) :
    ∃ s, calculate_fighter_stats t name = some s ∧
      s.fights_data.length
        = (fighter_win_rows t name).length + (fighter_loss_rows t name).length ∧
      (s.fights_data.filter (fun p => p.result == "Win")).length
        = (fighter_win_rows t name).length ∧
      (s.fights_data.filter (fun p => p.result == "Loss")).length
        = (fighter_loss_rows t name).length := by
  have hguard := guard_false_of_appears t name hex
  simp only [calculate_fighter_stats]
  rw [if_neg hguard]
  refine ⟨_, rfl, ?_, ?_, ?_⟩ <;> dsimp only
  · cases hd : t.hasDate
    · simp
    · simp [length_sortByDate]
  all_goals {
    have hperm : List.Perm
        (if t.hasDate = true then
          sortByDate ((fighter_win_rows t name).map (winPerspective t.hasWinnerStats)
            ++ (fighter_loss_rows t name).map (lossPerspective t.hasLoserStats))
        else (fighter_win_rows t name).map (winPerspective t.hasWinnerStats)
            ++ (fighter_loss_rows t name).map (lossPerspective t.hasLoserStats))
        ((fighter_win_rows t name).map (winPerspective t.hasWinnerStats)
          ++ (fighter_loss_rows t name).map (lossPerspective t.hasLoserStats)) := by
      by_cases hd : t.hasDate = true
      · rw [if_pos hd]; exact sortByDate_perm _
      · rw [if_neg hd]
    rw [(hperm.filter _).length_eq, List.filter_append]
    have hwin : ((fighter_win_rows t name).map (winPerspective t.hasWinnerStats)).filter
        (fun p => p.result == "Win")
        = (fighter_win_rows t name).map (winPerspective t.hasWinnerStats) := by
      apply List.filter_eq_self.mpr
      rintro p hp
      obtain ⟨b, _, rfl⟩ := List.mem_map.mp hp
      rfl
    have hwinNone : ((fighter_loss_rows t name).map (lossPerspective t.hasLoserStats)).filter
        (fun p => p.result == "Win") = [] := by
      apply List.filter_eq_nil_iff.mpr
      rintro p hp
      obtain ⟨b, _, rfl⟩ := List.mem_map.mp hp
      simp [lossPerspective]
    have hloss : ((fighter_loss_rows t name).map (lossPerspective t.hasLoserStats)).filter
        (fun p => p.result == "Loss")
        = (fighter_loss_rows t name).map (lossPerspective t.hasLoserStats) := by
      apply List.filter_eq_self.mpr
      rintro p hp
      obtain ⟨b, _, rfl⟩ := List.mem_map.mp hp
      rfl
    have hlossNone : ((fighter_win_rows t name).map (winPerspective t.hasWinnerStats)).filter
        (fun p => p.result == "Loss") = [] := by
      apply List.filter_eq_nil_iff.mpr
      rintro p hp
      obtain ⟨b, _, rfl⟩ := List.mem_map.mp hp
      simp [winPerspective]
    first
      | (rw [hwin, hwinNone]; simp)
      | (rw [hloss, hlossNone]; simp)
  }

/-- C5 amended witness: the degenerate self-bout table. -/
theorem one_perspective_per_side_witness :
    ∃ s, calculate_fighter_stats tSelf "A" = some s ∧
      s.fights_data.length
        = (fighter_win_rows tSelf "A").length + (fighter_loss_rows tSelf "A").length ∧
      (s.fights_data.filter (fun p => p.result == "Win")).length
        = (fighter_win_rows tSelf "A").length ∧
      (s.fights_data.filter (fun p => p.result == "Loss")).length
        = (fighter_loss_rows tSelf "A").length :=
  one_perspective_per_side tSelf "A" (by decide)

/-- C6: strike accuracy is the landed-sum over the attempted-sum times 100
over the combined perspective set, and `0` when the attempted-sum is zero;
takedown accuracy is guarded symmetrically. -/
theorem accuracy_guarded (t : Table) (name : String)
    (hex : ∃ b ∈ t.rows, b.winner = name ∨ b.loser = name) :
    ∃ s, calculate_fighter_stats t name = some s ∧
      s.strike_accuracy =
        (if (s.fights_data.map (fun p => p.strikes_attempted)).sum > 0 then
          ((((s.fights_data.map (fun p => p.strikes_landed)).sum : ℕ)) : ℚ)
            / ((((s.fights_data.map (fun p => p.strikes_attempted)).sum : ℕ)) : ℚ) * 100
        else 0) ∧
      ((s.fights_data.map (fun p => p.strikes_attempted)).sum = 0 →
        s.strike_accuracy = 0) ∧
      s.takedown_accuracy =
        (if (s.fights_data.map (fun p => p.takedown_attempts)).sum > 0 then
          ((((s.fights_data.map (fun p => p.takedowns_landed)).sum : ℕ)) : ℚ)
            / ((((s.fights_data.map (fun p => p.takedown_attempts)).sum : ℕ)) : ℚ) * 100
        else 0) ∧
      ((s.fights_data.map (fun p => p.takedown_attempts)).sum = 0 →
        s.takedown_accuracy = 0) := by
  have hguard := guard_false_of_appears t name hex
  simp only [calculate_fighter_stats]
  rw [if_neg hguard]
  refine ⟨_, rfl, rfl, ?_, rfl, ?_⟩ <;> dsimp only <;> intro h0 <;> rw [h0] <;> norm_num

/-- C6 witness. -/
theorem accuracy_guarded_witness :
    ∃ s, calculate_fighter_stats tSelf "A" = some s ∧
      s.strike_accuracy =
        (if (s.fights_data.map (fun p => p.strikes_attempted)).sum > 0 then
          ((((s.fights_data.map (fun p => p.strikes_landed)).sum : ℕ)) : ℚ)
            / ((((s.fights_data.map (fun p => p.strikes_attempted)).sum : ℕ)) : ℚ) * 100
        else 0) ∧
      ((s.fights_data.map (fun p => p.strikes_attempted)).sum = 0 →
        s.strike_accuracy = 0) ∧
      s.takedown_accuracy =
        (if (s.fights_data.map (fun p => p.takedown_attempts)).sum > 0 then
          ((((s.fights_data.map (fun p => p.takedowns_landed)).sum : ℕ)) : ℚ)
            / ((((s.fights_data.map (fun p => p.takedown_attempts)).sum : ℕ)) : ℚ) * 100
        else 0) ∧
      ((s.fights_data.map (fun p => p.takedown_attempts)).sum = 0 →
        s.takedown_accuracy = 0) :=
  accuracy_guarded tSelf "A" (by decide)

/-- C9: a method text can match both keyword sets, and the pie chart's
decision residual is the unclamped `wins - ko_wins - sub_wins`, which then
goes negative. -/
theorem classifier_overlap_negative_residual :
    classify (some "TKO (Submission to Punches)") = ⟨true, true⟩ ∧
    (calculate_fighter_stats tBoth "A").map decision_wins = some (-1) ∧
    (-1 : Int) < 0 := by decide

/-- C7: missing required columns abort the load with an error naming them and
produce no table, while rows are only dropped — never fatal — for an
unparsable date (counted in the reported total) or a missing winner/loser
value (silent). -/
theorem load_error_discipline (t : RawTable) :
    (missing_required t ≠ [] →
      load_data t = .error (.missingColumns (missing_required t))) ∧
    (missing_required t = [] →
      ∃ tbl, load_data t = .ok (tbl,
          if t.hasDate then (t.rows.filter (fun r => r.date.isNone)).length else 0) ∧
        tbl.rows = ((if t.hasDate then t.rows.filter (fun r => r.date.isSome)
            else t.rows).filter (fun r => r.winner.isSome && r.loser.isSome)).map toBout) := by
  constructor
  · intro hne
    simp only [load_data]
    rw [if_neg (by simpa using hne)]
  · intro hz
    simp only [load_data]
    rw [if_pos (by simp [hz])]
    exact ⟨_, rfl, rfl⟩

/-- One raw row whose date fails to parse. -/
def rawBadDate : RawRow :=
  { winner := some "A", loser := some "B", method := some "KO", date := none,
    winner_strikes_landed := 0, winner_strikes_attempted := 0,
    winner_takedowns := 0, winner_takedown_attempts := 0,
    loser_strikes_landed := 0, loser_strikes_attempted := 0,
    loser_takedowns := 0, loser_takedown_attempts := 0, time_minutes := 0 }

/-- A fully valid raw row with a legacy method label needing normalization. -/
def rawGood : RawRow :=
  { winner := some "A", loser := some "B", method := some " TKO ", date := some 3,
    winner_strikes_landed := 1, winner_strikes_attempted := 2,
    winner_takedowns := 0, winner_takedown_attempts := 0,
    loser_strikes_landed := 0, loser_strikes_attempted := 0,
    loser_takedowns := 0, loser_takedown_attempts := 0, time_minutes := 5 }

/-- A raw row with a valid date but a missing winner value. -/
def rawNoWinner : RawRow :=
  { winner := none, loser := some "B", method := some "KO", date := some 4,
    winner_strikes_landed := 0, winner_strikes_attempted := 0,
    winner_takedowns := 0, winner_takedown_attempts := 0,
    loser_strikes_landed := 0, loser_strikes_attempted := 0,
    loser_takedowns := 0, loser_takedown_attempts := 0, time_minutes := 0 }

def rawOk : RawTable :=
  { hasWinner := true, hasLoser := true, hasMethod := true, hasDate := true,
    hasWinnerStats := false, hasLoserStats := false, hasTime := true,
    rows := [rawBadDate, rawGood, rawNoWinner] }

/-- `rawOk` without its method column. -/
def rawMissingMethod : RawTable :=
  { hasWinner := true, hasLoser := true, hasMethod := false, hasDate := true,
    hasWinnerStats := false, hasLoserStats := false, hasTime := true,
    rows := [rawBadDate, rawGood, rawNoWinner] }

/-- C7 witness: the method-less table fails hard naming `method`; the valid
table loads, reports the one dropped NaT row, silently drops the
winner-less row, and keeps exactly the good row. -/
theorem load_error_discipline_witness :
    load_data rawMissingMethod = .error (.missingColumns ["method"]) ∧
    (∃ tbl, load_data rawOk = .ok (tbl, 1) ∧ tbl.rows = [toBout rawGood]) := by
  constructor
  · rw [(load_error_discipline rawMissingMethod).1 (by decide)]
    rfl
  · obtain ⟨tbl, h1, h2⟩ := (load_error_discipline rawOk).2 (by decide)
    have e1 : (if rawOk.hasDate then
        (rawOk.rows.filter (fun r => r.date.isNone)).length else 0) = 1 := by decide
    have e2 : ((if rawOk.hasDate then rawOk.rows.filter (fun r => r.date.isSome)
        else rawOk.rows).filter (fun r => r.winner.isSome && r.loser.isSome)).map toBout
        = [toBout rawGood] := by decide
    rw [e1] at h1
    rw [e2] at h2
    exact ⟨tbl, h1, h2⟩

/-- C10: the aggregator depends only on the fighter's own rows — tables with
identical column flags whose rows mentioning the fighter coincide (same rows,
same relative order) yield identical stats, whatever other rows they hold. -/
theorem aggregate_depends_only_on_own_rows (t1 t2 : Table) (name : String)
    (hd : t1.hasDate = t2.hasDate) (hm : t1.hasMethod = t2.hasMethod)
    (hws : t1.hasWinnerStats = t2.hasWinnerStats)
    (hls : t1.hasLoserStats = t2.hasLoserStats) (hti : t1.hasTime = t2.hasTime)
    (hrows : t1.rows.filter (fun b => b.winner == name || b.loser == name)
           = t2.rows.filter (fun b => b.winner == name || b.loser == name)) :
    calculate_fighter_stats t1 name = calculate_fighter_stats t2 name := by
  obtain ⟨d1, m1, w1, l1, ti1, r1⟩ := t1
  obtain ⟨d2, m2, w2, l2, ti2, r2⟩ := t2
  dsimp only at hd hm hws hls hti hrows
  subst hd hm hws hls hti
  have key : ∀ p : Bout → Bool,
      (∀ b, p b = true → (b.winner == name || b.loser == name) = true) →
      r1.filter p = r2.filter p := by
    intro p hp
    have e1 : r1.filter p
        = (r1.filter (fun b => b.winner == name || b.loser == name)).filter p := by
      rw [List.filter_filter]
      apply List.filter_congr
      intro a _
      cases hpa : p a
      · simp
      · simp [hp a hpa]
    have e2 : r2.filter p
        = (r2.filter (fun b => b.winner == name || b.loser == name)).filter p := by
      rw [List.filter_filter]
      apply List.filter_congr
      intro a _
      cases hpa : p a
      · simp
      · simp [hp a hpa]
    rw [e1, hrows, ← e2]
  have hW := key (fun b => b.winner == name) (by intro b hb; simp [hb])
  have hL := key (fun b => b.loser == name) (by intro b hb; simp [hb])
  simp only [calculate_fighter_stats, fighter_win_rows, fighter_loss_rows]
  rw [hW, hL]

/-- C10 witness: adding a row between two fighters unrelated to A does not
change A's stats. -/
theorem aggregate_depends_only_on_own_rows_witness :
    calculate_fighter_stats tEx "A" = calculate_fighter_stats tEx2 "A" :=
  aggregate_depends_only_on_own_rows tEx tEx2 "A" rfl rfl rfl rfl rfl (by decide)

end UFCApp
